import Mathlib

/-!
Verification of the mock CSI driver bootstrap (`cmd/mock-driver/main.go`).

The development shallowly embeds the bootstrap core: endpoint parsing
(`parseEndpoint`), listener acquisition (`listen`), the hooks-file step
(`parseHooksFile` and the surrounding logic of `main`), the combined/split
topology decision, and the start/signal-wait/stop lifecycle of `main`.

External effects (the filesystem, socket binding, gRPC server start, file
reading and YAML decoding, signal delivery) are modelled as oracle values
supplied through `World` and `HooksWorld` records, so that every definition
stays executable and every run of the embedded program is a pure value.
-/

namespace MockDriver

/-- ASCII upper-case/lower-case letter pairs, the case folding relevant to the
recognized endpoint schemes.  `strings.ToLower` is modelled on the ASCII
alphabet only (the recognized scheme names are ASCII). -/
def upperLower : List (Char × Char) :=
  [('A', 'a'), ('B', 'b'), ('C', 'c'), ('D', 'd'), ('E', 'e'), ('F', 'f'),
   ('G', 'g'), ('H', 'h'), ('I', 'i'), ('J', 'j'), ('K', 'k'), ('L', 'l'),
   ('M', 'm'), ('N', 'n'), ('O', 'o'), ('P', 'p'), ('Q', 'q'), ('R', 'r'),
   ('S', 's'), ('T', 't'), ('U', 'u'), ('V', 'v'), ('W', 'w'), ('X', 'x'),
   ('Y', 'y'), ('Z', 'z')]

/-- Lower-case one character (ASCII model of Go's `unicode.ToLower`). -/
def toLowerASCII (c : Char) : Char :=
  match upperLower.find? (fun p => p.1 == c) with
  | some p => p.2
  | none => c

/-- Model of `strings.ToLower ep`, as a character list (ASCII folding). -/
def stringsToLowerData (s : String) : List Char :=
  s.data.map toLowerASCII

/-- The characters of the scheme `unix://`. -/
def unixSchemeChars : List Char := ['u', 'n', 'i', 'x', ':', '/', '/']

/-- The characters of the scheme `tcp://`. -/
def tcpSchemeChars : List Char := ['t', 'c', 'p', ':', '/', '/']

/-- The separator `://` that `parseEndpoint` splits on. -/
def sepChars : List Char := [':', '/', '/']

/-- Model of `strings.HasPrefix(strings.ToLower(ep), "unix://")`. -/
def hasUnixScheme (ep : String) : Bool :=
  List.isPrefixOf unixSchemeChars (stringsToLowerData ep)

/-- Model of `strings.HasPrefix(strings.ToLower(ep), "tcp://")`. -/
def hasTcpScheme (ep : String) : Bool :=
  List.isPrefixOf tcpSchemeChars (stringsToLowerData ep)

/-- Model of `strings.SplitN(s, sep, 2)`: split at the leftmost occurrence of
`sep`, returning the parts before and after it, or `none` when `sep` does not
occur (Go returns a one-element slice in that case; `parseEndpoint` only
splits strings in which the separator is known to occur). -/
def splitN2 (sep : List Char) : List Char → Option (List Char × List Char)
  | [] => none
  | c :: cs =>
    if List.isPrefixOf sep (c :: cs) then some ([], (c :: cs).drop sep.length)
    else
      match splitN2 sep cs with
      | some (pre, post) => some (c :: pre, post)
      | none => none

/-- Embedding of `parseEndpoint` (main.go:185-195).  The scheme check
lowercases the string, but the returned pair comes from splitting the
*original* string, so the returned transport kind keeps the original casing. -/
def parseEndpoint (ep : String) : Except String (String × String) :=
  if hasUnixScheme ep || hasTcpScheme ep then
    match splitN2 sepChars ep.data with
    | some (pre, addr) =>
      if addr ≠ [] then Except.ok (String.mk pre, String.mk addr)
      else Except.error ("Invalid endpoint: " ++ ep)
    | none => Except.error ("Invalid endpoint: " ++ ep)
  else
    -- Assume everything else is a file path for a Unix Domain Socket.
    Except.ok ("unix", ep)

/-- Outcome of `os.Remove` on a path: success, failure satisfying
`os.IsNotExist`, or any other failure (carrying its message). -/
inductive RemoveResult
  | removed
  | notExist
  | failed (msg : String)
deriving DecidableEq, Repr

/-- What `listen` hands back for a successfully acquired listener: the network
and address passed to `net.Listen`, and whether the cleanup closure removes
the socket file (`true` for the `unix` branch) or is the no-op `func() {}`. -/
structure ListenerInfo where
  proto : String
  addr : String
  hasCleanup : Bool
deriving DecidableEq, Repr

/-- Oracles for the effectful steps of `main`/`listen`: the result of
`os.Remove` at each path, of `net.Listen` per (network, address), and of
`driver.Start` on the listener acquired for a given endpoint string. -/
structure World where
  remove : String → RemoveResult
  bind : String → String → Option String
  start : String → Bool

/-- Embedding of `listen` (main.go:197-216).  For the `unix` protocol a `/` is
prepended unconditionally, a pre-existing socket file is removed (a removal
error other than not-exist aborts with an error carrying the path and the
cause, per `fmt.Errorf("%s: %q", addr, err)`), and the returned cleanup
removes the file; for every other protocol the address is bound directly and
the cleanup is a no-op. -/
def listen (w : World) (endpoint : String) : Except String ListenerInfo :=
  match parseEndpoint endpoint with
  | Except.error e => Except.error e
  | Except.ok (proto, addr0) =>
    if proto = "unix" then
      let addr := "/" ++ addr0
      match w.remove addr with
      | RemoveResult.failed msg =>
          Except.error (addr ++ ": \"" ++ msg ++ "\"")
      | _ =>
        match w.bind proto addr with
        | some e => Except.error e
        | none => Except.ok ⟨proto, addr, true⟩
    else
      match w.bind proto addr0 with
      | some e => Except.error e
      | none => Except.ok ⟨proto, addr0, false⟩

/-- The three CSI service roles. -/
inductive Role
  | identity
  | controller
  | node
deriving DecidableEq, Repr

/-- A Server Group Member: the roles a started gRPC server exposes and the
endpoint string its listener is bound to. -/
structure Member where
  roles : List Role
  endpoint : String
deriving DecidableEq, Repr

/-- Embedding of main.go:56-60: `CSI_CONTROLLER_ENDPOINT` defaults to
`CSI_ENDPOINT` when empty. -/
def resolveControllerEndpoint (endpoint controllerEndpoint : String) : String :=
  if controllerEndpoint.length = 0 then endpoint else controllerEndpoint

/-- The topology decision of `main` (main.go:74-166): with
`endpoint == controllerEndpoint` (after defaulting) one member serving
Controller, Identity and Node on the primary endpoint is built; otherwise a
{Controller, Identity} member on the controller (secondary) endpoint and a
{Node, Identity} member on the primary endpoint.  Role lists follow the Go
struct literals. -/
def buildMembers (endpoint controllerEndpoint0 : String) : List Member :=
  let controllerEndpoint := resolveControllerEndpoint endpoint controllerEndpoint0
  if endpoint = controllerEndpoint then
    [⟨[Role.controller, Role.identity, Role.node], endpoint⟩]
  else
    [⟨[Role.controller, Role.identity], controllerEndpoint⟩,
     ⟨[Role.node, Role.identity], endpoint⟩]

/-- The termination signals `main` subscribes to (main.go:106-111,170-175). -/
inductive Signal
  | SIGTERM
  | SIGHUP
  | SIGINT
  | SIGQUIT
deriving DecidableEq, Repr

/-- How a run of `main` ends.  `startupFailure` is an exit through
`klog.Exitf`, which calls `os.Exit`: deferred functions do not run, so the
listener cleanups invoked on that path are recorded (and are always none).
`normalExit` is the ordinary return of `main` after the signal wait: it
records the cleanups run by the deferred calls (in LIFO order) and the
members stopped (in program order), and the process exit status is success. -/
inductive Outcome
  | startupFailure (cleanupsRun : List String)
  | normalExit (cleanupsRun : List String) (stopped : List String)
deriving DecidableEq, Repr

/-- Embedding of the lifecycle of `main` (main.go:74-182).  `sig` is the
termination signal received by the blocking `<-sigc`; any of the four
subscribed signals unblocks the wait and the continuation does not inspect
which one arrived.  Listener cleanups and member stops are recorded by the
endpoint string of the member.  On the combined branch: listen, start, wait,
`d.Stop()`, then the deferred `cleanup()`.  On the split branch: listen and
start the controller member (on the controller endpoint), then the node
member (on the primary endpoint), wait, `dc.Stop()`, `dn.Stop()`, then the
deferred `cleanupNode()` and `cleanupController()` in LIFO order.  Every
failure exits through `klog.Exitf`, running no deferred cleanup. -/
def runMain (w : World) (sig : Signal) (endpoint controllerEndpoint0 : String) : Outcome :=
  let controllerEndpoint := resolveControllerEndpoint endpoint controllerEndpoint0
  if endpoint = controllerEndpoint then
    match listen w endpoint with
    | Except.error _ => Outcome.startupFailure []
    | Except.ok _ =>
      if w.start endpoint then
        Outcome.normalExit [endpoint] [endpoint]
      else Outcome.startupFailure []
  else
    match listen w controllerEndpoint with
    | Except.error _ => Outcome.startupFailure []
    | Except.ok _ =>
      if w.start controllerEndpoint then
        match listen w endpoint with
        | Except.error _ => Outcome.startupFailure []
        | Except.ok _ =>
          if w.start endpoint then
            Outcome.normalExit [endpoint, controllerEndpoint]
              [controllerEndpoint, endpoint]
          else Outcome.startupFailure []
      else Outcome.startupFailure []

/-- Stand-in for `service.Hooks`; its YAML structure is external to this core
and never inspected by `main`. -/
structure Hooks where
  raw : String
deriving DecidableEq, Repr

/-- The mock service configuration assembled from the command-line flags
(main.go:42-52).  `driverName` defaults to the external constant
`service.Name`, kept abstract here as its literal value lives outside this
core. -/
structure Config where
  disableAttach : Bool := false
  driverName : String := ""
  attachLimit : Int := 2
  nodeExpansionRequired : Bool := false
  enableTopology : Bool := false
  disableControllerExpansion : Bool := false
  disableOnlineExpansion : Bool := false
  permissiveTargetPath : Bool := false
  execHooks : Option Hooks := none
deriving DecidableEq, Repr

/-- Oracles for the effectful steps of `parseHooksFile`: `os.Open`,
`ioutil.ReadAll`, and `yaml.UnmarshalStrict`. -/
structure HooksWorld where
  openFile : Except String Unit
  readAll : Except String String
  unmarshalStrict : String → Except String Hooks

/-- Embedding of `parseHooksFile` (main.go:218-236): open the file, read it
whole, strictly decode it; the first failing step is returned as the error. -/
def parseHooksFile (hw : HooksWorld) : Except String Hooks :=
  match hw.openFile with
  | Except.error e => Except.error e
  | Except.ok _ =>
    match hw.readAll with
    | Except.error e => Except.error e
    | Except.ok bytes => hw.unmarshalStrict bytes

/-- Embedding of the hooks-file step of `main` (main.go:62-69): with a
non-empty `-hooks-file` flag, a successful parse is stored into
`config.ExecHooks`; a failed parse logs an error and leaves the
configuration unchanged.  Returns the updated configuration and the error
log lines emitted. -/
def loadHooks (hooksFile : String) (hw : HooksWorld) (config : Config) :
    Config × List String :=
  if hooksFile ≠ "" then
    match parseHooksFile hw with
    | Except.ok execHooks => ({ config with execHooks := some execHooks }, [])
    | Except.error e =>
        (config, ["Failed to load hooks file " ++ hooksFile ++ ": " ++ e])
  else (config, [])

/-- The whole of `main` after flag parsing: the hooks-file step followed by
the topology/lifecycle part.  The configuration feeds the shared service
instance and never influences topology or lifecycle, which the source makes
plain by constructing `s` before the `endpoint == controllerEndpoint`
branch. -/
def runProcess (w : World) (hw : HooksWorld) (hooksFile : String) (sig : Signal)
    (endpoint controllerEndpoint0 : String) : Config × List String × Outcome :=
  let step := loadHooks hooksFile hw {}
  (step.1, step.2, runMain w sig endpoint controllerEndpoint0)

/-- Collapse runs of `/` after a first character (helper for
`normalizePath`). -/
def squashSlashes : Char → List Char → List Char
  | _, [] => []
  | prev, c :: rest =>
    if prev = '/' ∧ c = '/' then squashSlashes prev rest
    else c :: squashSlashes c rest

/-- Collapse consecutive path separators: on Linux, `//tmp/a.sock` and
`/tmp/a.sock` name the same filesystem object. -/
def normalizePath (p : String) : String :=
  match p.data with
  | [] => ""
  | c :: rest => String.mk (c :: squashSlashes c rest)

/-- Boolean success test for `Except` results. -/
def isOkE {ε α : Type} : Except ε α → Bool
  | Except.ok _ => true
  | Except.error _ => false

/-- A world in which every effect succeeds: removals find no pre-existing
file, every bind succeeds, every server starts. -/
def wBenign : World where
  remove := fun _ => RemoveResult.notExist
  bind := fun _ _ => none
  start := fun _ => true

lemma isPrefixOf_append (p : List Char) :
    ∀ l, List.isPrefixOf p l = true → ∃ t, l = p ++ t := by
  induction p with
  | nil => intro l _; exact ⟨l, rfl⟩
  | cons a as ih =>
    intro l h
    cases l with
    | nil => simp [List.isPrefixOf] at h
    | cons b bs =>
      simp only [List.isPrefixOf, Bool.and_eq_true, beq_iff_eq] at h
      obtain ⟨t, ht⟩ := ih bs h.2
      exact ⟨t, by rw [ht, List.cons_append, h.1]⟩

lemma map_cons_inv {l : List Char} {x : Char} {xs : List Char}
    (h : l.map toLowerASCII = x :: xs) :
    ∃ a t, l = a :: t ∧ toLowerASCII a = x ∧ t.map toLowerASCII = xs := by
  cases l with
  | nil => simp at h
  | cons a t =>
    simp only [List.map_cons, List.cons.injEq] at h
    exact ⟨a, t, rfl, h.1, h.2⟩

/-- A character whose ASCII lowercasing is not a lower-case letter was already
that character. -/
lemma toLowerASCII_fix {c d : Char} (hd : ∀ p ∈ upperLower, p.2 ≠ d)
    (h : toLowerASCII c = d) : c = d := by
  unfold toLowerASCII at h
  cases hf : upperLower.find? (fun p => p.1 == c) with
  | none => rw [hf] at h; exact h
  | some p =>
    rw [hf] at h
    exact absurd h (hd p (List.mem_of_find?_eq_some hf))

lemma ne_of_toLower {c d e : Char} (h : toLowerASCII c = d)
    (hne : toLowerASCII e ≠ d) : c ≠ e :=
  fun hce => hne (hce ▸ h)

lemma splitN2_at4 (c0 c1 c2 c3 : Char) (rest : List Char)
    (h0 : c0 ≠ ':') (h1 : c1 ≠ ':') (h2 : c2 ≠ ':') (h3 : c3 ≠ ':') :
    splitN2 sepChars (c0 :: c1 :: c2 :: c3 :: ':' :: '/' :: '/' :: rest) =
      some ([c0, c1, c2, c3], rest) := by
  have b0 : (':' == c0) = false := beq_eq_false_iff_ne.mpr (Ne.symm h0)
  have b1 : (':' == c1) = false := beq_eq_false_iff_ne.mpr (Ne.symm h1)
  have b2 : (':' == c2) = false := beq_eq_false_iff_ne.mpr (Ne.symm h2)
  have b3 : (':' == c3) = false := beq_eq_false_iff_ne.mpr (Ne.symm h3)
  simp [splitN2, sepChars, List.isPrefixOf, b0, b1, b2, b3]

lemma splitN2_at3 (c0 c1 c2 : Char) (rest : List Char)
    (h0 : c0 ≠ ':') (h1 : c1 ≠ ':') (h2 : c2 ≠ ':') :
    splitN2 sepChars (c0 :: c1 :: c2 :: ':' :: '/' :: '/' :: rest) =
      some ([c0, c1, c2], rest) := by
  have b0 : (':' == c0) = false := beq_eq_false_iff_ne.mpr (Ne.symm h0)
  have b1 : (':' == c1) = false := beq_eq_false_iff_ne.mpr (Ne.symm h1)
  have b2 : (':' == c2) = false := beq_eq_false_iff_ne.mpr (Ne.symm h2)
  simp [splitN2, sepChars, List.isPrefixOf, b0, b1, b2]

/-- An endpoint matching `unix://` case-insensitively starts with four
characters lowercasing to `unix`, followed by a literal `://`. -/
lemma unix_scheme_decomp {ep : String} (h : hasUnixScheme ep = true) :
    ∃ c0 c1 c2 c3 rest,
      ep.data = c0 :: c1 :: c2 :: c3 :: ':' :: '/' :: '/' :: rest ∧
      toLowerASCII c0 = 'u' ∧ toLowerASCII c1 = 'n' ∧
      toLowerASCII c2 = 'i' ∧ toLowerASCII c3 = 'x' := by
  unfold hasUnixScheme stringsToLowerData unixSchemeChars at h
  obtain ⟨t, ht⟩ := isPrefixOf_append _ _ h
  simp only [List.cons_append, List.nil_append] at ht
  obtain ⟨a0, l0, he0, hf0, hm0⟩ := map_cons_inv ht
  obtain ⟨a1, l1, he1, hf1, hm1⟩ := map_cons_inv hm0
  obtain ⟨a2, l2, he2, hf2, hm2⟩ := map_cons_inv hm1
  obtain ⟨a3, l3, he3, hf3, hm3⟩ := map_cons_inv hm2
  obtain ⟨a4, l4, he4, hf4, hm4⟩ := map_cons_inv hm3
  obtain ⟨a5, l5, he5, hf5, hm5⟩ := map_cons_inv hm4
  obtain ⟨a6, l6, he6, hf6, hm6⟩ := map_cons_inv hm5
  have e4 : a4 = ':' := toLowerASCII_fix (by decide) hf4
  have e5 : a5 = '/' := toLowerASCII_fix (by decide) hf5
  have e6 : a6 = '/' := toLowerASCII_fix (by decide) hf6
  refine ⟨a0, a1, a2, a3, l6, ?_, hf0, hf1, hf2, hf3⟩
  rw [he0, he1, he2, he3, he4, he5, he6, e4, e5, e6]

/-- An endpoint matching `tcp://` case-insensitively starts with three
characters lowercasing to `tcp`, followed by a literal `://`. -/
lemma tcp_scheme_decomp {ep : String} (h : hasTcpScheme ep = true) :
    ∃ c0 c1 c2 rest,
      ep.data = c0 :: c1 :: c2 :: ':' :: '/' :: '/' :: rest ∧
      toLowerASCII c0 = 't' ∧ toLowerASCII c1 = 'c' ∧ toLowerASCII c2 = 'p' := by
  unfold hasTcpScheme stringsToLowerData tcpSchemeChars at h
  obtain ⟨t, ht⟩ := isPrefixOf_append _ _ h
  simp only [List.cons_append, List.nil_append] at ht
  obtain ⟨a0, l0, he0, hf0, hm0⟩ := map_cons_inv ht
  obtain ⟨a1, l1, he1, hf1, hm1⟩ := map_cons_inv hm0
  obtain ⟨a2, l2, he2, hf2, hm2⟩ := map_cons_inv hm1
  obtain ⟨a3, l3, he3, hf3, hm3⟩ := map_cons_inv hm2
  obtain ⟨a4, l4, he4, hf4, hm4⟩ := map_cons_inv hm3
  obtain ⟨a5, l5, he5, hf5, hm5⟩ := map_cons_inv hm4
  have e3 : a3 = ':' := toLowerASCII_fix (by decide) hf3
  have e4 : a4 = '/' := toLowerASCII_fix (by decide) hf4
  have e5 : a5 = '/' := toLowerASCII_fix (by decide) hf5
  refine ⟨a0, a1, a2, l5, ?_, hf0, hf1, hf2⟩
  rw [he0, he1, he2, he3, he4, he5, e3, e4, e5]

lemma okE_exists {ε α : Type} {x : Except ε α} (h : isOkE x = true) :
    ∃ a, x = Except.ok a := by
  cases x with
  | ok a => exact ⟨a, rfl⟩
  | error e => simp [isOkE] at h

/-- C5: an endpoint string without a recognized `unix://`/`tcp://` scheme
resolves to the filesystem-socket kind with the original string as address,
unchanged. -/
theorem parseEndpoint_raw_path (ep : String)
    (h : (hasUnixScheme ep || hasTcpScheme ep) = false) :
    parseEndpoint ep = Except.ok ("unix", ep) := by
  simp [parseEndpoint, h]

theorem parseEndpoint_raw_path_witness :
    parseEndpoint "/tmp/mock.sock" = Except.ok ("unix", "/tmp/mock.sock") :=
  parseEndpoint_raw_path "/tmp/mock.sock" (by decide)

/-- C4: an endpoint with a recognized scheme but an empty remainder after
`://` fails with an `Invalid endpoint` error naming the original string. -/
theorem parseEndpoint_empty_remainder (ep : String) (pre : List Char)
    (h : (hasUnixScheme ep || hasTcpScheme ep) = true)
    (hsplit : splitN2 sepChars ep.data = some (pre, [])) :
    parseEndpoint ep = Except.error ("Invalid endpoint: " ++ ep) := by
  simp [parseEndpoint, h, hsplit]

theorem parseEndpoint_empty_remainder_witness :
    parseEndpoint "unix://" = Except.error ("Invalid endpoint: " ++ "unix://") :=
  parseEndpoint_empty_remainder "unix://" ['u', 'n', 'i', 'x']
    (by decide) (by decide)

/-- C3 (corrected claim): with a case-insensitively recognized scheme and a
non-empty remainder, resolution succeeds and returns the remainder as the
address, and as transport kind the scheme *as written in the original
string*: its lowercasing is `unix`/`tcp`, but it equals the recognized kind
only when the endpoint spells the scheme in lower case. -/
theorem parseEndpoint_recognized_scheme (ep : String) (pre addr : List Char)
    (h : (hasUnixScheme ep || hasTcpScheme ep) = true)
    (hsplit : splitN2 sepChars ep.data = some (pre, addr))
    (hne : addr ≠ []) :
    parseEndpoint ep = Except.ok (String.mk pre, String.mk addr) ∧
    List.map toLowerASCII pre =
      (if hasUnixScheme ep then ['u', 'n', 'i', 'x'] else ['t', 'c', 'p']) ∧
    ep.data = pre ++ sepChars ++ addr := by
  by_cases hu : hasUnixScheme ep = true
  · obtain ⟨c0, c1, c2, c3, rest, hshape, hf0, hf1, hf2, hf3⟩ :=
      unix_scheme_decomp hu
    have hsp := splitN2_at4 c0 c1 c2 c3 rest
      (ne_of_toLower hf0 (by decide)) (ne_of_toLower hf1 (by decide))
      (ne_of_toLower hf2 (by decide)) (ne_of_toLower hf3 (by decide))
    rw [hshape, hsp] at hsplit
    have hpre : pre = [c0, c1, c2, c3] := by
      have := hsplit
      simp only [Option.some.injEq, Prod.mk.injEq] at this
      exact this.1.symm
    have haddr : addr = rest := by
      have := hsplit
      simp only [Option.some.injEq, Prod.mk.injEq] at this
      exact this.2.symm
    subst hpre haddr
    refine ⟨?_, ?_, ?_⟩
    · simp [parseEndpoint, h, hshape, hsp, hne]
    · simp [hu, hf0, hf1, hf2, hf3]
    · rw [hshape]; simp [sepChars]
  · have hu' : hasUnixScheme ep = false := by
      revert hu; cases hasUnixScheme ep <;> simp
    have htcp : hasTcpScheme ep = true := by
      revert h; rw [hu']; simp
    obtain ⟨c0, c1, c2, rest, hshape, hf0, hf1, hf2⟩ := tcp_scheme_decomp htcp
    have hsp := splitN2_at3 c0 c1 c2 rest
      (ne_of_toLower hf0 (by decide)) (ne_of_toLower hf1 (by decide))
      (ne_of_toLower hf2 (by decide))
    rw [hshape, hsp] at hsplit
    have hpre : pre = [c0, c1, c2] := by
      have := hsplit
      simp only [Option.some.injEq, Prod.mk.injEq] at this
      exact this.1.symm
    have haddr : addr = rest := by
      have := hsplit
      simp only [Option.some.injEq, Prod.mk.injEq] at this
      exact this.2.symm
    subst hpre haddr
    refine ⟨?_, ?_, ?_⟩
    · simp [parseEndpoint, h, hshape, hsp, hne]
    · simp [hu', hf0, hf1, hf2]
    · rw [hshape]; simp [sepChars]

theorem parseEndpoint_recognized_scheme_witness :
    parseEndpoint "Unix://x" =
      Except.ok (String.mk ['U', 'n', 'i', 'x'], String.mk ['x']) ∧
    List.map toLowerASCII ['U', 'n', 'i', 'x'] =
      (if hasUnixScheme "Unix://x" then ['u', 'n', 'i', 'x']
       else ['t', 'c', 'p']) ∧
    "Unix://x".data = ['U', 'n', 'i', 'x'] ++ sepChars ++ ['x'] :=
  parseEndpoint_recognized_scheme "Unix://x" ['U', 'n', 'i', 'x'] ['x']
    (by decide) (by decide) (by decide)

/-- C3, counterexample to the claim as stated: `UNIX://a` resolves
successfully, but the returned transport kind is `UNIX`, not the
filesystem-socket kind `unix` — and `listen` consequently treats it as a
non-`unix` network: no `/` prepended, no file removal, no cleanup closure. -/
theorem parseEndpoint_uppercase_kind_cex :
    parseEndpoint "UNIX://a" = Except.ok ("UNIX", "a") ∧
    ("UNIX" : String) ≠ "unix" ∧
    listen wBenign "UNIX://a" = Except.ok ⟨"UNIX", "a", false⟩ :=
  ⟨rfl, by decide, rfl⟩

/-- C2: when the primary and the (defaulted) controller endpoint coincide as
strings, exactly one Server Group Member is built, serving Controller,
Identity and Node on the primary endpoint. -/
theorem combined_topology_member (e ce0 : String)
    (h : resolveControllerEndpoint e ce0 = e) :
    buildMembers e ce0 = [⟨[Role.controller, Role.identity, Role.node], e⟩] := by
  unfold buildMembers
  rw [h, if_pos rfl]

theorem combined_topology_member_witness :
    resolveControllerEndpoint "unix:///tmp/a.sock" "" = "unix:///tmp/a.sock" ∧
    buildMembers "unix:///tmp/a.sock" "" =
      [⟨[Role.controller, Role.identity, Role.node], "unix:///tmp/a.sock"⟩] :=
  ⟨by decide, combined_topology_member "unix:///tmp/a.sock" "" (by decide)⟩

/-- C1, counterexample to the claim as stated: with primary
`tcp://127.0.0.1:9000` and secondary `tcp://127.0.0.1:9001`, no member
serving the controller role is bound to the *primary* endpoint — the
controller member is bound to the secondary (`CSI_CONTROLLER_ENDPOINT`)
endpoint, the node member to the primary. -/
theorem split_controller_not_on_primary :
    ¬ ∃ m ∈ buildMembers "tcp://127.0.0.1:9000" "tcp://127.0.0.1:9001",
        Role.controller ∈ m.roles ∧ m.endpoint = "tcp://127.0.0.1:9000" := by
  decide

/-- C1 (corrected claim): when the primary and the (defaulted) controller
endpoint differ, exactly two members are built: one serving
{Controller, Identity} bound to the *secondary* (controller) endpoint, and
one serving {Node, Identity} bound to the *primary* endpoint. -/
theorem split_topology_members (e ce0 : String)
    (h : resolveControllerEndpoint e ce0 ≠ e) :
    buildMembers e ce0 =
      [⟨[Role.controller, Role.identity], resolveControllerEndpoint e ce0⟩,
       ⟨[Role.node, Role.identity], e⟩] := by
  unfold buildMembers
  rw [if_neg (fun he => h he.symm)]

theorem split_topology_members_witness :
    resolveControllerEndpoint "tcp://127.0.0.1:9000" "tcp://127.0.0.1:9001" ≠
      "tcp://127.0.0.1:9000" ∧
    buildMembers "tcp://127.0.0.1:9000" "tcp://127.0.0.1:9001" =
      [⟨[Role.controller, Role.identity], "tcp://127.0.0.1:9001"⟩,
       ⟨[Role.node, Role.identity], "tcp://127.0.0.1:9000"⟩] := by
  refine ⟨by decide, ?_⟩
  have := split_topology_members "tcp://127.0.0.1:9000" "tcp://127.0.0.1:9001"
    (by decide)
  simpa using this

/-- C6: with primary endpoint `unix:///tmp/a.sock` and the secondary unset,
the combined topology is chosen (one member, all three roles), one listener
is acquired on the `unix` network with a file-removing cleanup, and the bound
socket address — `//tmp/a.sock` after the unconditional `/` prepend — names
the filesystem path `/tmp/a.sock` (consecutive separators collapse on
Linux). -/
theorem combined_unix_scenario :
    buildMembers "unix:///tmp/a.sock" "" =
      [⟨[Role.controller, Role.identity, Role.node], "unix:///tmp/a.sock"⟩] ∧
    listen wBenign "unix:///tmp/a.sock" =
      Except.ok ⟨"unix", "//tmp/a.sock", true⟩ ∧
    normalizePath "//tmp/a.sock" = "/tmp/a.sock" ∧
    runMain wBenign Signal.SIGTERM "unix:///tmp/a.sock" "" =
      Outcome.normalExit ["unix:///tmp/a.sock"] ["unix:///tmp/a.sock"] :=
  ⟨rfl, rfl, rfl, rfl⟩

/-- C7: for an endpoint that resolves to the `unix` (filesystem-socket) kind,
`listen` first attempts to remove a pre-existing file at the socket path; a
removal failure other than not-exist aborts with an error carrying the path
and the cause, while a not-exist failure is ignored and acquisition proceeds
to bind (yielding, on a successful bind, the `unix` listener with its
file-removing cleanup). -/
theorem listen_remove_semantics (w : World) (ep a : String)
    (h : parseEndpoint ep = Except.ok ("unix", a)) :
    (∀ msg, w.remove ("/" ++ a) = RemoveResult.failed msg →
      listen w ep = Except.error ("/" ++ a ++ ": \"" ++ msg ++ "\"")) ∧
    (w.remove ("/" ++ a) = RemoveResult.notExist →
      w.bind "unix" ("/" ++ a) = none →
      listen w ep = Except.ok ⟨"unix", "/" ++ a, true⟩) := by
  constructor
  · intro msg hrem
    simp [listen, h, hrem]
  · intro hrem hbind
    simp [listen, h, hrem, hbind]

def wRemoveFails : World where
  remove := fun _ => RemoveResult.failed "permission denied"
  bind := fun _ _ => none
  start := fun _ => true

theorem listen_remove_semantics_witness :
    listen wRemoveFails "/tmp/x" =
      Except.error ("/" ++ "/tmp/x" ++ ": \"" ++ "permission denied" ++ "\"") :=
  (listen_remove_semantics wRemoveFails "/tmp/x" "/tmp/x" rfl).1
    "permission denied" rfl

/-- A world in which the bind of the node member's socket `//a` fails while
everything else succeeds. -/
def wNodeBindFails : World where
  remove := fun _ => RemoveResult.notExist
  bind := fun _ addr =>
    if addr = "//a" then some "listen unix //a: bind: address already in use"
    else none
  start := fun _ => true

/-- C8, counterexample to the claim as stated: in split topology the
controller member's listener on `unix:///b` is acquired (with a file-removing
cleanup), then the node member's bind fails; the process exits through
`klog.Exitf` (`os.Exit`), which does not run deferred functions, so no
cleanup runs on this exit path — the acquired listener's cleanup runs zero
times, not once. -/
theorem cleanup_skipped_on_startup_failure :
    listen wNodeBindFails "unix:///b" = Except.ok ⟨"unix", "//b", true⟩ ∧
    runMain wNodeBindFails Signal.SIGTERM "unix:///a" "unix:///b" =
      Outcome.startupFailure [] :=
  ⟨rfl, rfl⟩

/-- C8 (corrected claim): on the normal-shutdown exit path the deferred
cleanups of all acquired listeners run, exactly once each, in LIFO order of
acquisition; on every startup-failure exit path the process terminates via
`klog.Exitf`/`os.Exit` and no deferred cleanup runs at all. -/
theorem cleanup_on_exit_paths (w : World) (sig : Signal) (e ce0 : String) :
    (∀ cl st, runMain w sig e ce0 = Outcome.normalExit cl st →
      cl = ((buildMembers e ce0).map Member.endpoint).reverse) ∧
    (∀ cl, runMain w sig e ce0 = Outcome.startupFailure cl → cl = []) := by
  constructor
  · intro cl st hrun
    simp only [runMain] at hrun
    simp only [buildMembers]
    by_cases hc : e = resolveControllerEndpoint e ce0
    · rw [if_pos hc] at hrun
      rw [if_pos hc]
      split at hrun
      · exact absurd hrun (by simp)
      · split at hrun
        · simp only [Outcome.normalExit.injEq] at hrun
          simp [← hrun.1]
        · exact absurd hrun (by simp)
    · rw [if_neg hc] at hrun
      rw [if_neg hc]
      split at hrun
      · exact absurd hrun (by simp)
      · split at hrun
        · split at hrun
          · exact absurd hrun (by simp)
          · split at hrun
            · simp only [Outcome.normalExit.injEq] at hrun
              simp [← hrun.1]
            · exact absurd hrun (by simp)
        · exact absurd hrun (by simp)
  · intro cl hrun
    simp only [runMain] at hrun
    by_cases hc : e = resolveControllerEndpoint e ce0
    · rw [if_pos hc] at hrun
      split at hrun
      · simp only [Outcome.startupFailure.injEq] at hrun
        exact hrun.symm
      · split at hrun
        · exact absurd hrun (by simp)
        · simp only [Outcome.startupFailure.injEq] at hrun
          exact hrun.symm
    · rw [if_neg hc] at hrun
      split at hrun
      · simp only [Outcome.startupFailure.injEq] at hrun
        exact hrun.symm
      · split at hrun
        · split at hrun
          · simp only [Outcome.startupFailure.injEq] at hrun
            exact hrun.symm
          · split at hrun
            · exact absurd hrun (by simp)
            · simp only [Outcome.startupFailure.injEq] at hrun
              exact hrun.symm
        · simp only [Outcome.startupFailure.injEq] at hrun
          exact hrun.symm

theorem cleanup_on_exit_paths_witness :
    ["unix:///a", "unix:///b"] =
      ((buildMembers "unix:///a" "unix:///b").map Member.endpoint).reverse :=
  (cleanup_on_exit_paths wBenign Signal.SIGHUP "unix:///a" "unix:///b").1
    ["unix:///a", "unix:///b"] ["unix:///b", "unix:///a"] rfl

/-- A hooks world in which the file opens but reading it fails. -/
def hwReadFails : HooksWorld where
  openFile := Except.ok ()
  readAll := Except.error "read failure"
  unmarshalStrict := fun _ => Except.error "not reached"

/-- C9: with a non-empty hooks-file option whose document cannot be read or
parsed, the failure is logged, the hooks configuration stays unset, and the
rest of startup proceeds exactly as it would have without the failure — it is
never fatal. -/
theorem hooks_failure_nonfatal (w : World) (hw : HooksWorld)
    (hooksFile : String) (sig : Signal) (e ce0 : String) (msg : String)
    (h1 : hooksFile ≠ "")
    (h2 : parseHooksFile hw = Except.error msg) :
    (runProcess w hw hooksFile sig e ce0).1.execHooks = none ∧
    (runProcess w hw hooksFile sig e ce0).2.1 =
      ["Failed to load hooks file " ++ hooksFile ++ ": " ++ msg] ∧
    (runProcess w hw hooksFile sig e ce0).2.2 = runMain w sig e ce0 := by
  simp [runProcess, loadHooks, h1, h2]

theorem hooks_failure_nonfatal_witness :
    (runProcess wBenign hwReadFails "hooks.yaml" Signal.SIGTERM
      "/tmp/s" "").1.execHooks = none ∧
    (runProcess wBenign hwReadFails "hooks.yaml" Signal.SIGTERM
      "/tmp/s" "").2.1 =
      ["Failed to load hooks file " ++ "hooks.yaml" ++ ": " ++ "read failure"] ∧
    (runProcess wBenign hwReadFails "hooks.yaml" Signal.SIGTERM
      "/tmp/s" "").2.2 = runMain wBenign Signal.SIGTERM "/tmp/s" "" :=
  hooks_failure_nonfatal wBenign hwReadFails "hooks.yaml" Signal.SIGTERM
    "/tmp/s" "" "read failure" (by decide) rfl

/-- C10: when every member's listener is acquired and every server starts,
the process blocks until one of the four subscribed termination signals
arrives, and after any such signal every started member is stopped (in
program order) and the run ends in the normal success exit, with the deferred
cleanups running in LIFO order. -/
theorem signal_shutdown_stops_all (w : World) (sig : Signal) (e ce0 : String)
    (h : ∀ m ∈ buildMembers e ce0,
      isOkE (listen w m.endpoint) = true ∧ w.start m.endpoint = true) :
    runMain w sig e ce0 =
      Outcome.normalExit (((buildMembers e ce0).map Member.endpoint).reverse)
        ((buildMembers e ce0).map Member.endpoint) := by
  by_cases hc : e = resolveControllerEndpoint e ce0
  · have hb : buildMembers e ce0 =
        [⟨[Role.controller, Role.identity, Role.node], e⟩] := by
      unfold buildMembers; rw [if_pos hc]
    rw [hb] at h
    obtain ⟨hok, hst⟩ :=
      h ⟨[Role.controller, Role.identity, Role.node], e⟩ (by simp)
    have hok' : isOkE (listen w e) = true := hok
    have hst' : w.start e = true := hst
    obtain ⟨i, hi⟩ := okE_exists hok'
    simp only [runMain]
    rw [if_pos hc, hi]
    simp [hst', hb]
  · have hb : buildMembers e ce0 =
        [⟨[Role.controller, Role.identity], resolveControllerEndpoint e ce0⟩,
         ⟨[Role.node, Role.identity], e⟩] := by
      unfold buildMembers; rw [if_neg hc]
    rw [hb] at h
    obtain ⟨hokc, hstc⟩ :=
      h ⟨[Role.controller, Role.identity], resolveControllerEndpoint e ce0⟩
        (by simp)
    obtain ⟨hokn, hstn⟩ := h ⟨[Role.node, Role.identity], e⟩ (by simp)
    have hokc' : isOkE (listen w (resolveControllerEndpoint e ce0)) = true := hokc
    have hstc' : w.start (resolveControllerEndpoint e ce0) = true := hstc
    have hokn' : isOkE (listen w e) = true := hokn
    have hstn' : w.start e = true := hstn
    obtain ⟨ic, hic⟩ := okE_exists hokc'
    obtain ⟨iN, hiN⟩ := okE_exists hokn'
    simp only [runMain]
    rw [if_neg hc, hic]
    simp [hstc', hiN, hstn', hb]

theorem signal_shutdown_stops_all_witness :
    runMain wBenign Signal.SIGINT "unix:///var/lib/csi.sock"
        "tcp://127.0.0.1:10000" =
      Outcome.normalExit
        (((buildMembers "unix:///var/lib/csi.sock"
            "tcp://127.0.0.1:10000").map Member.endpoint).reverse)
        ((buildMembers "unix:///var/lib/csi.sock"
            "tcp://127.0.0.1:10000").map Member.endpoint) :=
  signal_shutdown_stops_all wBenign Signal.SIGINT "unix:///var/lib/csi.sock"
    "tcp://127.0.0.1:10000" (by decide)

end MockDriver
